import Mathlib

/-!
Verification development for the vramfs core (src/src/memory.cpp).

The file shallowly embeds the two cores of the program:

* the OpenCL block pool (`increase_pool`, `allocate`, `block`:
  construction, `read`, `write`) — device buffers are identified by
  natural-number ids, device memory is a map from buffer id to its byte
  list, and device command success is supplied by boolean oracles, since
  the real outcomes come from the OpenCL driver;
* the FUSE/sqlite path index (`index_find`, `vram_getattr`, `vram_open`) —
  the sqlite `entries` table is a list of rows in rowid order, and the
  `SELECT ... WHERE parent = ? AND name = ? LIMIT 1` query is the first
  matching row of that list.

Machine-integer notes: `size_t` arithmetic is modelled on `Nat` with an
explicit `% 2 ^ 64` where the source can wrap (`size - 1` in
`increase_pool`); sqlite ids (`int64_t`) and errno results are modelled
on `Int`.  `block::size` (a compile-time constant defined in memory.hpp,
which is not part of the sources) is kept as a parameter `bs` assumed
positive.
-/

namespace Vramfs

/-! ## Errno and system constants (from the system headers) -/

/-- Linux errno ENOENT (2): no such file or directory. -/
def ENOENT : Int := 2

/-- Linux errno EAGAIN (11): resource temporarily unavailable. -/
def EAGAIN : Int := 11

/-- Linux errno EACCES (13): permission denied. -/
def EACCES : Int := 13

/-- Linux errno ENOTDIR (20): not a directory. -/
def ENOTDIR : Int := 20

/-- Linux errno EISDIR (21): is a directory. -/
def EISDIR : Int := 21

/-- POSIX open access mode O_RDONLY (0); the access mode is
`flags & 3` in `vram_open`. -/
def O_RDONLY : Nat := 0

/-- stat mode bit for directories, `S_IFDIR` (octal 040000). -/
def S_IFDIR : Nat := 0o40000

/-- stat mode bit for regular files, `S_IFREG` (octal 0100000). -/
def S_IFREG : Nat := 0o100000

/-! ## Path index data model -/

/-- One row of the sqlite `entries` table:
`entries(id INTEGER PRIMARY KEY, parent INTEGER DEFAULT 0, name TEXT NOT
NULL, dir INTEGER, size INTEGER DEFAULT 4096, atime/mtime/ctime INTEGER
DEFAULT now)`. -/
structure Entry where
  id : Int
  parent : Int
  name : String
  dir : Bool
  size : Int
  atime : Int
  mtime : Int
  ctime : Int
deriving DecidableEq, Repr

/-- `static const int ROOT_PARENT = 0;` — the sentinel parent id used by
the root row and as the starting point of `index_find`. -/
def ROOT_PARENT : Int := 0

/-- `static const int ROOT_ENTRY = 1;` — the id of the seeded root row. -/
def ROOT_ENTRY : Int := 1

/-- The index right after `vram_init`: only the seed root row
`INSERT INTO entries (id, name, dir) VALUES (1, '', 1)`; `parent` takes
its default 0 and `size` its default 4096; the three times default to
"now", kept as a parameter `t`. -/
def freshIndex (t : Int) : List Entry :=
  [{ id := ROOT_ENTRY, parent := ROOT_PARENT, name := "", dir := true,
     size := 4096, atime := t, mtime := t, ctime := t }]

/-- `entry_filter_t` from types.hpp, used as the `filter` argument of
`index_find` (values `all`, `directory`, `file` as used in the source). -/
inductive EntryFilter where
  | all
  | directory
  | file
deriving DecidableEq, Repr

/-- The prepared query
`SELECT id, dir FROM entries WHERE parent = ? AND name = ? LIMIT 1`:
first row of the table (in rowid order) whose `parent` and `name` match
the bound values. -/
def entry_lookup (idx : List Entry) (parent : Int) (name : String) : Option Entry :=
  idx.find? (fun e => e.parent == parent && e.name == name)

/-- One round of `std::getline(stream, part, '/')` repeated until it
fails: `acc` holds (reversed) the characters read so far for the current
part; a delimiter ends the current part and a further `getline` is
attempted only if characters remain; end of input ends the current part
and the next `getline` fails. -/
def glAux : List Char → List Char → List String
  | acc, [] => [String.mk acc.reverse]
  | acc, c :: cs =>
    if c = '/' then
      String.mk acc.reverse ::
        (match cs with
         | [] => []
         | c2 :: cs2 => glAux [] (c2 :: cs2))
    else glAux (c :: acc) cs

/-- The component list produced by `while (getline(stream, part, '/'))`
on `path`: the very first `getline` on an empty stream fails, producing
no components. -/
def getlineSplit (s : String) : List String :=
  match s.data with
  | [] => []
  | c :: cs => glAux [] (c :: cs)

/-- Result of the traversal loop of `index_find`: the final value of the
`entry` variable (an id or a negative errno), the final value of the
`dir` flag, and how many times `sqlite3_step` was executed (one
execution per component lookup actually performed). -/
structure FindResult where
  entry : Int
  dir : Bool
  steps : Nat
deriving DecidableEq, Repr

/-- The `while (getline(...))` loop of `index_find`: starting from the
current `entry`/`dir` pair, for each component abort with `-ENOTDIR` if
the current entry is not a directory, else look the component up under
the current entry, aborting with `-ENOENT` if absent, else continue from
the found row. -/
def find_loop (idx : List Entry) : Int → Bool → List String → FindResult
  | entry, dir, [] => { entry := entry, dir := dir, steps := 0 }
  | entry, dir, part :: rest =>
    if dir = false then { entry := -ENOTDIR, dir := dir, steps := 0 }
    else
      match entry_lookup idx entry part with
      | none => { entry := -ENOENT, dir := dir, steps := 1 }
      | some e =>
        let r := find_loop idx e.id e.dir rest
        { entry := r.entry, dir := r.dir, steps := r.steps + 1 }

/-- `index_find(db, path, filter)`: split `path` on the separator, walk
the components from `(ROOT_PARENT, dir = true)`, then apply the filter
to a positively resolved entry.  Returns the resulting id-or-errno
together with the number of `sqlite3_step` executions (the second
component is instrumentation; the C function returns only the first).
The model assumes query preparation succeeds (the `-EAGAIN` branch of
the source is the index-unavailable case, outside these claims). -/
def index_find (idx : List Entry) (path : String) (filter : EntryFilter) : Int × Nat :=
  let r := find_loop idx ROOT_PARENT true (getlineSplit path)
  let entry :=
    if 0 < r.entry then
      if filter = EntryFilter.directory ∧ r.dir = false then -ENOTDIR
      else if filter = EntryFilter.file ∧ r.dir = true then -EISDIR
      else r.entry
    else r.entry
  (entry, r.steps)

/-- The fields of `struct stat` written by `vram_getattr`. -/
structure StatBuf where
  st_mode : Nat
  st_nlink : Nat
  st_uid : Nat
  st_gid : Nat
  st_size : Int
  st_atime : Int
  st_mtime : Int
  st_ctime : Int
deriving DecidableEq, Repr

/-- `vram_getattr(path, stbuf)`: resolve `path` with no filter; on a
positive id, load `dir, size, atime, mtime, ctime` of that row
(`SELECT ... WHERE id = ?`; as in sqlite, column reads yield 0 when the
step produced no row) and fill the stat buffer; otherwise return the
error and leave the caller's buffer untouched (modelled as `none`).
`euid`/`egid` are the results of `geteuid()`/`getegid()`. -/
def vram_getattr (idx : List Entry) (path : String) (euid egid : Nat) :
    Int × Option StatBuf :=
  let entry := (index_find idx path EntryFilter.all).1
  if 0 < entry then
    let row := idx.find? (fun r => r.id == entry)
    let isDir := (row.map (fun r => r.dir)).getD false
    (0, some
      { st_mode := if isDir then S_IFDIR ||| 0o755 else S_IFREG ||| 0o444,
        st_nlink := if isDir then 2 else 1,
        st_uid := euid,
        st_gid := egid,
        st_size := (row.map (fun r => r.size)).getD 0,
        st_atime := (row.map (fun r => r.atime)).getD 0,
        st_mtime := (row.map (fun r => r.mtime)).getD 0,
        st_ctime := (row.map (fun r => r.ctime)).getD 0 })
  else (entry, none)

/-- `vram_open(path, fi)`: resolve `path` filtered to `file`; on a
positive id allow only `(fi->flags & 3) == O_RDONLY`, else `-EACCES`;
on a non-positive result return it unchanged. -/
def vram_open (idx : List Entry) (path : String) (flags : Nat) : Int :=
  let entry := (index_find idx path EntryFilter.file).1
  if 0 < entry then
    if flags &&& 3 = O_RDONLY then 0 else -EACCES
  else entry

/-! ## Block pool and block data model -/

/-- The pool globals of `vram::memory`: `pool` (the free list of
buffers, back = most recently pushed) and `total_blocks`.  Buffers are
identified by natural-number ids standing for `cl::Buffer` handles. -/
structure PoolState where
  pool : List Nat
  total_blocks : Nat
deriving DecidableEq, Repr

/-- `pool_size()`: returns `total_blocks`. -/
def pool_size (s : PoolState) : Nat := s.total_blocks

/-- `pool_available()`: returns `pool.size()`. -/
def pool_available (s : PoolState) : Nat := s.pool.length

/-- A checked-out `block`: the wrapped buffer id, the `dirty` flag and
the `last_write` event.  Modelled from the spec: the member initializer
of `dirty` lives in memory.hpp (not among the sources); the spec states
that a freshly constructed Block starts dirty, and `block::block()` in
the source only pops `pool.back()` into `buffer`. -/
structure Block where
  buffer : Nat
  dirty : Bool
  last_write : Option Nat
deriving DecidableEq, Repr

/-- `block::block()`: wrap the given buffer (the caller pops it from the
free list); dirty, with no pending write event. -/
def block_mk (buf : Nat) : Block :=
  { buffer := buf, dirty := true, last_write := none }

/-- `allocate()`: if the free list is non-empty, pop `pool.back()` into
a new block (`block_ref(new block())`; the constructor does the pop),
else return `nullptr` and leave the pool untouched. -/
def allocate (s : PoolState) : Option Block × PoolState :=
  if s.pool.length ≠ 0 then
    (some (block_mk (s.pool.getLastD 0)), { s with pool := s.pool.dropLast })
  else (none, s)

/-- The `size_t` value of `1 + (size - 1) / block::size` computed by
`increase_pool`: the subtraction wraps modulo `2 ^ 64` when `size = 0`. -/
def block_count (bs size : Nat) : Nat :=
  1 + ((size + (2 ^ 64 - 1)) % 2 ^ 64) / bs

/-- The `for (int i = 0; i < block_count; i++)` loop of `increase_pool`,
with `rem` iterations left at index `i`: allocate a fresh buffer
(`newbuf i`, succeeding iff `allocOk i`), clear it (succeeding iff
`clearOk i`); on success push it and bump `total_blocks`, on the first
failure stop and return `i * block::size`; after the last iteration
return `block_count * block::size` (here `i * bs` with `i` having
reached the initial `block_count`). -/
def increase_pool_loop (bs : Nat) (allocOk clearOk : Nat → Bool) (newbuf : Nat → Nat) :
    Nat → Nat → PoolState → Nat × PoolState
  | i, 0, s => (i * bs, s)
  | i, rem + 1, s =>
    if allocOk i && clearOk i then
      increase_pool_loop bs allocOk clearOk newbuf (i + 1) rem
        { pool := s.pool ++ [newbuf i], total_blocks := s.total_blocks + 1 }
    else (i * bs, s)

/-- `increase_pool(size)`: run the allocation loop for
`block_count bs size` iterations starting at index 0. -/
def increase_pool (bs : Nat) (allocOk clearOk : Nat → Bool) (newbuf : Nat → Nat)
    (size : Nat) (s : PoolState) : Nat × PoolState :=
  increase_pool_loop bs allocOk clearOk newbuf 0 (block_count bs size) s

/-! ## Device memory, clear, read and write -/

/-- Device state: the contents of every buffer (`mem b` is the byte list
of buffer `b`) and a counter supplying the next completion event id. -/
structure Device where
  mem : Nat → List Nat
  nextEvent : Nat

/-- Writing `data` into a buffer's contents at `offset` (the effect of
`enqueueWriteBuffer`/`enqueueCopyBuffer` on the destination). -/
def storeBytes (buf : List Nat) (offset : Nat) (data : List Nat) : List Nat :=
  buf.take offset ++ data ++ buf.drop (offset + data.length)

/-- `clear_buffer(buf)`: `enqueueFillBuffer(buf, 0, 0, block::size)` on
platforms with FillBuffer, else
`enqueueCopyBuffer(zero_buffer, buf, 0, 0, block::size)`.  Returns the
updated device memory. -/
def clear_buffer (bs : Nat) (hasFill : Bool) (zeroBuf : Nat)
    (m : Nat → List Nat) (buf : Nat) : Nat → List Nat :=
  fun x =>
    if x = buf then
      (if hasFill then List.replicate bs 0
       else storeBytes (m buf) 0 ((m zeroBuf).take bs))
    else m x

/-- A device command issued by `block::read` (the dirty branch issues
none; the other branch issues a blocking `enqueueReadBuffer`). -/
inductive DevCmd where
  | readBuf (buffer offset size : Nat)
deriving DecidableEq, Repr

/-- `block::read(offset, size, data)`: if dirty, `memset(data, 0, size)`
and no device command; else a blocking `enqueueReadBuffer` of `size`
bytes at `offset`.  Returns the bytes placed in `data` and the list of
device commands issued. -/
def block_read (b : Block) (d : Device) (offset size : Nat) :
    List Nat × List DevCmd :=
  if b.dirty then (List.replicate size 0, [])
  else (((d.mem b.buffer).drop offset).take size,
        [DevCmd.readBuf b.buffer offset size])

/-- `block::write(offset, size, data, async)`: if the block is dirty and
`size != block::size`, first `clear_buffer(buffer)`; then enqueue a
write of `size` bytes of `data` at `offset` (in async mode the write
reads from a private heap copy of the same bytes, freed by the
completion callback — byte-for-byte identical, so not distinguished
here); record the event as `last_write` and set `dirty = false`.
The event id is the device's next event counter. -/
def block_write (bs : Nat) (hasFill : Bool) (zeroBuf : Nat) (b : Block) (d : Device)
    (offset size : Nat) (data : List Nat) (async : Bool) : Block × Device :=
  let m := if b.dirty ∧ size ≠ bs then clear_buffer bs hasFill zeroBuf d.mem b.buffer
           else d.mem
  let m2 := fun x => if x = b.buffer then storeBytes (m b.buffer) offset (data.take size)
                     else m x
  ({ b with dirty := false, last_write := some d.nextEvent },
   { mem := m2, nextEvent := d.nextEvent + 1 })

/-! ## Sample data used by the witnesses -/

/-- A file row under the root, as would be inserted by index population:
id 2, parent 1, name "f". -/
def sampleFile : Entry :=
  { id := 2, parent := ROOT_ENTRY, name := "f", dir := false,
    size := 4096, atime := 5, mtime := 6, ctime := 7 }

/-- A fresh index plus one file "f" under the root. -/
def sampleIndex : List Entry := freshIndex 0 ++ [sampleFile]

/-- A concrete device whose buffers all hold `[7, 8, 9, 10]`. -/
def sampleDevice : Device :=
  { mem := fun _ => [7, 8, 9, 10], nextEvent := 0 }

/-! ## Helper lemmas -/

/-- Splitting the traversal loop of `index_find` at a point where the
walk has not aborted (the accumulated entry is positive: both abort
values, `-ENOTDIR` and `-ENOENT`, are negative): the walk continues from
the intermediate entry/dir pair and the step counts add. -/
theorem find_loop_append (idx : List Entry) (xs ys : List String) :
    ∀ (entry : Int) (dir : Bool) (r : FindResult), find_loop idx entry dir xs = r →
    0 < r.entry →
    find_loop idx entry dir (xs ++ ys) =
      { entry := (find_loop idx r.entry r.dir ys).entry,
        dir := (find_loop idx r.entry r.dir ys).dir,
        steps := r.steps + (find_loop idx r.entry r.dir ys).steps } := by
  induction xs with
  | nil =>
    intro entry dir r hr hpos
    simp only [find_loop] at hr
    subst hr
    simp [find_loop]
  | cons part rest ih =>
    intro entry dir r hr hpos
    simp only [find_loop, List.cons_append] at hr ⊢
    by_cases hd : dir = false
    · rw [if_pos hd] at hr
      subst hr
      simp [ENOTDIR] at hpos
    · rw [if_neg hd] at hr ⊢
      cases hlk : entry_lookup idx entry part with
      | none =>
        rw [hlk] at hr
        dsimp only at hr
        subst hr
        simp [ENOENT] at hpos
      | some e =>
        rw [hlk] at hr
        dsimp only at hr ⊢
        subst hr
        dsimp only at hpos ⊢
        simp only [List.append_eq]
        have hmid := ih e.id e.dir (find_loop idx e.id e.dir rest) rfl hpos
        rw [hmid]
        simp only [FindResult.mk.injEq, true_and]
        omega

/-- Every element of a replicated list reads back as the replicated
value. -/
theorem replicate_getD (a dflt : Nat) : ∀ (n i : Nat), i < n →
    (List.replicate n a).getD i dflt = a
  | n + 1, 0, _ => rfl
  | n + 1, i + 1, h => replicate_getD a dflt n i (by omega)

/-- Running the allocation loop of `increase_pool` when step `f` is the
first to fail (with `f` still inside the remaining iteration range):
the loop stops at `f`, having pushed exactly the buffers of the
successful steps, and returns `f * bs`. -/
theorem increase_pool_loop_first_fail (bs : Nat) (allocOk clearOk : Nat → Bool)
    (newbuf : Nat → Nat) :
    ∀ (rem i f : Nat) (s : PoolState),
      i ≤ f → f < i + rem →
      (∀ j, i ≤ j → j < f → (allocOk j && clearOk j) = true) →
      (allocOk f && clearOk f) = false →
      increase_pool_loop bs allocOk clearOk newbuf i rem s =
        (f * bs,
         { pool := s.pool ++ (List.range' i (f - i)).map newbuf,
           total_blocks := s.total_blocks + (f - i) }) := by
  intro rem
  induction rem with
  | zero =>
    intro i f s h1 h2 _ _
    exact absurd h2 (by omega)
  | succ rem ih =>
    intro i f s h1 h2 hok hfail
    by_cases hif : i = f
    · subst hif
      simp [increase_pool_loop, hfail]
    · have hi : (allocOk i && clearOk i) = true := hok i le_rfl (by omega)
      simp only [increase_pool_loop, hi, if_true]
      rw [ih (i + 1) f _ (by omega) (by omega)
            (fun j hj1 hj2 => hok j (by omega) hj2) hfail]
      have hfi : f - i = (f - (i + 1)) + 1 := by omega
      have h2' : s.total_blocks + 1 + (f - (i + 1)) =
          s.total_blocks + (f - i) := by omega
      rw [hfi, List.range'_succ, List.map_cons, h2']
      simp [List.append_assoc, hfi]

/-! ## The claims -/

/-- C2: for every path and filter, `index_find` fails with `-ENOTDIR` as
soon as a non-final component resolves to a non-directory entry,
regardless of the remaining components; and once all components are
consumed with a positive entry, a `directory` filter on a file yields
`-ENOTDIR`, a `file` filter on a directory yields `-EISDIR`, and
otherwise the resolved (positive) entry id is returned. -/
theorem index_find_typing (idx : List Entry) (path : String) (filter : EntryFilter) :
    (∀ (pre : List String) (c : String) (rest : List String) (e : Int) (n : Nat),
       getlineSplit path = pre ++ c :: rest → rest ≠ [] →
       find_loop idx ROOT_PARENT true (pre ++ [c]) = { entry := e, dir := false, steps := n } →
       0 < e →
       (index_find idx path filter).1 = -ENOTDIR)
    ∧ (∀ (e : Int) (d : Bool) (n : Nat),
       find_loop idx ROOT_PARENT true (getlineSplit path) = { entry := e, dir := d, steps := n } →
       0 < e →
       (index_find idx path filter).1 =
         (if filter = EntryFilter.directory ∧ d = false then -ENOTDIR
          else if filter = EntryFilter.file ∧ d = true then -EISDIR
          else e)) := by
  constructor
  · intro pre c rest e n hsplit hrest hwalk hpos
    have hsplit2 : getlineSplit path = (pre ++ [c]) ++ rest := by
      rw [hsplit]; simp
    have happ := find_loop_append idx (pre ++ [c]) rest ROOT_PARENT true
      { entry := e, dir := false, steps := n } hwalk hpos
    cases rest with
    | nil => exact absurd rfl hrest
    | cons r2 rest2 =>
      simp only [index_find, hsplit2, happ]
      simp [find_loop]
  · intro e d n hwalk hpos
    simp only [index_find, hwalk, hpos, if_pos]

/-- C2 witness: on the sample index (root plus file "f"), resolving
"/f/x" hits the file "f" at a non-final component and fails `-ENOTDIR`;
resolving "/f" with the `file` filter returns entry id 2. -/
theorem index_find_typing_witness :
    (index_find sampleIndex ("/f/x") EntryFilter.all).1 = -ENOTDIR
    ∧ (index_find sampleIndex ("/f") EntryFilter.file).1 =
        (if EntryFilter.file = EntryFilter.directory ∧ false = false then -ENOTDIR
         else if EntryFilter.file = EntryFilter.file ∧ false = true then -EISDIR
         else 2) :=
  ⟨(index_find_typing sampleIndex ("/f/x") EntryFilter.all).1
      [""] "f" ["x"] 2 2 (by decide) (by decide) (by decide) (by decide),
   (index_find_typing sampleIndex ("/f") EntryFilter.file).2
      2 false 2 (by decide) (by decide)⟩

/-- C7 counterexample: resolving the path "/" on a freshly initialized
index does return the root id 1, but it does so by consuming one
component comparison — `getline` yields a single empty component, which
is looked up (one `sqlite3_step`) and matches the root row's empty name
— so "returns 1 with zero component comparisons" is false. -/
theorem index_find_root_counterexample :
    ¬ ((index_find (freshIndex 0) ("/") EntryFilter.all).1 = ROOT_ENTRY
       ∧ (index_find (freshIndex 0) ("/") EntryFilter.all).2 = 0) := by
  decide

/-- C7 (amended): on a freshly initialized index, resolving "/" returns
the root entry id 1, consuming exactly one component comparison: the
single empty component produced by splitting "/", which matches the
root row (empty name, parent = ROOT_PARENT). -/
theorem index_find_root (t : Int) :
    (index_find (freshIndex t) ("/") EntryFilter.all).1 = ROOT_ENTRY
    ∧ (index_find (freshIndex t) ("/") EntryFilter.all).2 = 1 :=
  ⟨rfl, rfl⟩

/-- C10: on the empty path, `getline` immediately fails, so the walk
performs no comparison and `index_find` returns `ROOT_PARENT = 0` —
neither a positive entry id nor a negative error code — for every index
and filter; consequently `vram_getattr` on the empty path returns 0
(success) without writing any attribute field. -/
theorem index_find_empty_path (idx : List Entry) (filter : EntryFilter) (euid egid : Nat) :
    (index_find idx ("") filter).1 = ROOT_PARENT
    ∧ ¬ 0 < ROOT_PARENT ∧ ¬ ROOT_PARENT < 0
    ∧ vram_getattr idx ("") euid egid = (0, none) :=
  ⟨rfl, by decide, by decide, rfl⟩

/-- C8: when the path resolves to an existing file entry (positive id
under the `file` filter), `vram_open` succeeds exactly when the
requested access mode (`flags & 3`) is `O_RDONLY`, any other access
mode returning `-EACCES`; a negative resolution result (NotFound,
NotADirectory, IsADirectory) is returned unchanged. -/
theorem vram_open_access (idx : List Entry) (path : String) (flags : Nat) (e : Int)
    (he : (index_find idx path EntryFilter.file).1 = e) :
    (0 < e → (vram_open idx path flags = 0 ↔ flags &&& 3 = O_RDONLY)
           ∧ (flags &&& 3 ≠ O_RDONLY → vram_open idx path flags = -EACCES))
    ∧ (e < 0 → vram_open idx path flags = e) := by
  simp only [vram_open, he]
  constructor
  · intro hpos
    rw [if_pos hpos]
    by_cases hf : flags &&& 3 = O_RDONLY
    · rw [if_pos hf]
      exact ⟨by simp [hf], fun hcon => absurd hf hcon⟩
    · rw [if_neg hf]
      refine ⟨?_, fun _ => rfl⟩
      constructor
      · intro habs
        exact absurd habs (by simp [EACCES])
      · intro habs
        exact absurd habs hf
  · intro hneg
    rw [if_neg (by omega)]

/-- C8 witness: on the sample index, opening the file "/f" read-only
(flags 0) succeeds, opening it write-only (flags 1) is `-EACCES`, and
opening the directory "/" under the file filter propagates `-EISDIR`. -/
theorem vram_open_access_witness :
    (vram_open sampleIndex ("/f") 0 = 0 ↔ (0 : Nat) &&& 3 = O_RDONLY)
    ∧ vram_open sampleIndex ("/f") 1 = -EACCES
    ∧ vram_open sampleIndex ("/") 5 = -EISDIR :=
  ⟨((vram_open_access sampleIndex ("/f") 0 2 (by decide)).1 (by decide)).1,
   ((vram_open_access sampleIndex ("/f") 1 2 (by decide)).1 (by decide)).2 (by decide),
   (vram_open_access sampleIndex ("/") 5 (-EISDIR) (by decide)).2 (by decide)⟩

/-- C9: when the path resolves to an existing entry whose row is `r`,
`vram_getattr` succeeds and reports: for a directory, mode
`S_IFDIR | 0755` with link count 2; for a file, mode `S_IFREG | 0444`
(read-only) with link count 1; owner and group the effective uid/gid;
and size, atime, mtime, ctime copied verbatim from the row. -/
theorem vram_getattr_reports (idx : List Entry) (path : String) (euid egid : Nat)
    (e : Int) (r : Entry)
    (he : (index_find idx path EntryFilter.all).1 = e) (hpos : 0 < e)
    (hr : idx.find? (fun row => row.id == e) = some r) :
    vram_getattr idx path euid egid =
      (0, some
        { st_mode := if r.dir then S_IFDIR ||| 0o755 else S_IFREG ||| 0o444,
          st_nlink := if r.dir then 2 else 1,
          st_uid := euid,
          st_gid := egid,
          st_size := r.size,
          st_atime := r.atime,
          st_mtime := r.mtime,
          st_ctime := r.ctime }) := by
  simp only [vram_getattr, he, if_pos hpos, hr, Option.map_some', Option.getD_some]

/-- C9 witness: `vram_getattr` on the file "/f" of the sample index
reports read-only regular-file mode, one link, uid/gid 1000, and the
row's size 4096 and times 5, 6, 7. -/
theorem vram_getattr_reports_witness :
    vram_getattr sampleIndex ("/f") 1000 1000 =
      (0, some
        { st_mode := S_IFREG ||| 0o444,
          st_nlink := 1,
          st_uid := 1000,
          st_gid := 1000,
          st_size := 4096,
          st_atime := 5,
          st_mtime := 6,
          st_ctime := 7 }) :=
  vram_getattr_reports sampleIndex ("/f") 1000 1000 2 sampleFile
    (by decide) (by decide) (by decide)

/-- C6: if the free list is non-empty, `allocate` pops exactly the last
pushed buffer and returns a fresh block exclusively wrapping it, with
`pool_available` decreased by one and `pool_size` unchanged; if the
free list is empty it returns the null block and leaves the pool state
entirely unchanged (and, being a total function of the state, it
neither blocks nor grows the pool). -/
theorem allocate_pool (s : PoolState) :
    (s.pool ≠ [] →
       allocate s = (some (block_mk (s.pool.getLastD 0)),
         { pool := s.pool.dropLast, total_blocks := s.total_blocks })
       ∧ pool_available (allocate s).2 + 1 = pool_available s
       ∧ pool_size (allocate s).2 = pool_size s)
    ∧ (s.pool = [] → allocate s = (none, s)) := by
  constructor
  · intro hne
    have hlen : s.pool.length ≠ 0 := by
      simpa [List.length_eq_zero] using hne
    have hpos : 0 < s.pool.length := Nat.pos_of_ne_zero hlen
    refine ⟨by simp [allocate, hlen], ?_, by simp [allocate, hlen, pool_size]⟩
    simp only [allocate, hlen, if_pos, ne_eq, not_false_eq_true, pool_available,
      List.length_dropLast]
    omega
  · intro hnil
    simp [allocate, hnil]

/-- C6 witness: allocating from the pool `[4, 9]` (2 free, 5 total)
yields a block wrapping buffer 9 and pool `[4]` with 5 total; allocating
from an empty free list yields the null block and the unchanged state. -/
theorem allocate_pool_witness :
    (allocate { pool := [4, 9], total_blocks := 5 } =
       (some (block_mk (([4, 9] : List Nat).getLastD 0)),
        { pool := ([4, 9] : List Nat).dropLast, total_blocks := 5 })
     ∧ pool_available (allocate { pool := [4, 9], total_blocks := 5 }).2 + 1 =
         pool_available { pool := [4, 9], total_blocks := 5 }
     ∧ pool_size (allocate { pool := [4, 9], total_blocks := 5 }).2 =
         pool_size { pool := [4, 9], total_blocks := 5 })
    ∧ allocate { pool := [], total_blocks := 5 } =
        (none, { pool := [], total_blocks := 5 }) :=
  ⟨(allocate_pool { pool := [4, 9], total_blocks := 5 }).1 (by decide),
   (allocate_pool { pool := [], total_blocks := 5 }).2 rfl⟩

/-- C3: a freshly constructed block is dirty; reading any range of a
dirty block fills the output with `size` zero bytes and issues no
device command; only a non-dirty block's read issues a (blocking)
device read command. -/
theorem block_read_dirty_zeroes (buf : Nat) (b : Block) (d : Device) (offset size : Nat) :
    (block_mk buf).dirty = true
    ∧ (b.dirty = true → block_read b d offset size = (List.replicate size 0, []))
    ∧ (b.dirty = false →
        block_read b d offset size =
          (((d.mem b.buffer).drop offset).take size,
           [DevCmd.readBuf b.buffer offset size])) := by
  refine ⟨rfl, ?_, ?_⟩ <;> intro h <;> simp [block_read, h]

/-- C3 witness: a fresh block over buffer 3 is dirty; reading 2 bytes at
offset 1 from it yields `[0, 0]` with no device command; the same read
on a non-dirty block issues the device read and returns the buffer
slice. -/
theorem block_read_dirty_zeroes_witness :
    (block_mk 3).dirty = true
    ∧ block_read (block_mk 3) sampleDevice 1 2 = (List.replicate 2 0, [])
    ∧ block_read { buffer := 3, dirty := false, last_write := none } sampleDevice 1 2 =
        (((sampleDevice.mem 3).drop 1).take 2, [DevCmd.readBuf 3 1 2]) :=
  ⟨(block_read_dirty_zeroes 3 (block_mk 3) sampleDevice 1 2).1,
   (block_read_dirty_zeroes 3 (block_mk 3) sampleDevice 1 2).2.1 rfl,
   (block_read_dirty_zeroes 3 { buffer := 3, dirty := false, last_write := none }
      sampleDevice 1 2).2.2 rfl⟩

/-- C1: if allocating or clearing the buffer at 0-indexed position `i`
is the first step of `increase_pool` to fail, the call stops there and
returns `i * block::size` — a byte count, the function's only output
channel, so the shortfall is never signalled by an error value — and
exactly the `i` already-succeeded buffers were appended to the free
list, with `total_blocks` increased by exactly `i`.  The bounds keep
the model inside the machine ranges of the source (`size` a `size_t`,
the block count stored in an `int`). -/
theorem increase_pool_partial (bs size : Nat) (allocOk clearOk : Nat → Bool)
    (newbuf : Nat → Nat) (s : PoolState) (i : Nat)
    (hbs : 0 < bs) (hsz : size < 2 ^ 64) (hfit : block_count bs size < 2 ^ 31)
    (hi : i < block_count bs size)
    (hok : ∀ j, j < i → allocOk j = true ∧ clearOk j = true)
    (hfail : allocOk i = false ∨ clearOk i = false) :
    increase_pool bs allocOk clearOk newbuf size s =
      (i * bs,
       { pool := s.pool ++ (List.range i).map newbuf,
         total_blocks := s.total_blocks + i })
    ∧ (increase_pool bs allocOk clearOk newbuf size s).2.pool.length =
        s.pool.length + i := by
  have hfail2 : (allocOk i && clearOk i) = false := by
    rcases hfail with h | h <;> simp [h]
  have hok2 : ∀ j, 0 ≤ j → j < i → (allocOk j && clearOk j) = true := by
    intro j _ hj
    obtain ⟨h1, h2⟩ := hok j hj
    simp [h1, h2]
  have hmain := increase_pool_loop_first_fail bs allocOk clearOk newbuf
    (block_count bs size) 0 i s (Nat.zero_le i) (by omega) hok2 hfail2
  rw [Nat.sub_zero, ← List.range_eq_range'] at hmain
  refine ⟨?_, ?_⟩
  · rw [increase_pool, hmain]
  · rw [increase_pool, hmain]
    simp

/-- C1 witness: with block size 4096 and request 10000 (3 blocks), the
allocation at index 2 failing first makes the call return 8192 and
leaves exactly the 2 succeeded buffers in the (initially empty) free
list. -/
theorem increase_pool_partial_witness :
    increase_pool 4096 (fun j => decide (j ≠ 2)) (fun _ => true) (fun j => j)
        10000 { pool := [], total_blocks := 0 } =
      (2 * 4096,
       { pool := [] ++ (List.range 2).map (fun j => j),
         total_blocks := 0 + 2 })
    ∧ (increase_pool 4096 (fun j => decide (j ≠ 2)) (fun _ => true) (fun j => j)
        10000 { pool := [], total_blocks := 0 }).2.pool.length =
        ([] : List Nat).length + 2 :=
  increase_pool_partial 4096 10000 (fun j => decide (j ≠ 2)) (fun _ => true)
    (fun j => j) { pool := [], total_blocks := 0 } 2
    (by decide) (by decide) (by decide) (by decide)
    (by decide) (Or.inl (by decide))

/-- C4: writing to a dirty block with a size not covering the whole
block first clears the buffer to zero, so after the enqueued write the
buffer holds zeros outside `[offset, offset + size)` and the written
data inside; and — in synchronous and asynchronous mode alike — the
block comes back with `dirty = false` immediately (the model's write
returns at enqueue time) and with the write's completion event recorded
as `last_write`.  The `hzb` hypothesis is the invariant established by
`init_opencl` on pre-FillBuffer platforms: the fallback source buffer
holds one block of zeros. -/
theorem block_write_dirty_clears (bs : Nat) (hasFill : Bool) (zeroBuf : Nat)
    (b : Block) (d : Device) (offset size : Nat) (data : List Nat) (async : Bool)
    (hdirty : b.dirty = true) (hsize : size ≠ bs) (hlen : data.length = size)
    (hfit : offset + size ≤ bs)
    (hbuf : (d.mem b.buffer).length = bs)
    (hzb : hasFill = false → d.mem zeroBuf = List.replicate bs 0) :
    (block_write bs hasFill zeroBuf b d offset size data async).2.mem b.buffer =
      List.replicate offset 0 ++ data ++ List.replicate (bs - (offset + size)) 0
    ∧ (∀ j, j < offset ∨ (offset + size ≤ j ∧ j < bs) →
        ((block_write bs hasFill zeroBuf b d offset size data async).2.mem
          b.buffer).getD j 1 = 0)
    ∧ (block_write bs hasFill zeroBuf b d offset size data async).1.dirty = false
    ∧ (block_write bs hasFill zeroBuf b d offset size data async).1.last_write =
        some d.nextEvent := by
  have hcond : b.dirty ∧ size ≠ bs := ⟨by simp [hdirty], hsize⟩
  have htake : List.take size data = data := by
    rw [← hlen]
    exact List.take_length data
  have hcleared :
      (if b.dirty ∧ size ≠ bs then clear_buffer bs hasFill zeroBuf d.mem b.buffer
       else d.mem) b.buffer = List.replicate bs 0 := by
    rw [if_pos hcond]
    cases hasFill with
    | true => simp [clear_buffer]
    | false =>
      simp only [clear_buffer, if_pos, Bool.false_eq_true, if_false]
      rw [hzb rfl, List.take_replicate, Nat.min_self]
      simp only [storeBytes, List.take_zero, List.length_replicate, Nat.zero_add,
        List.nil_append]
      rw [List.drop_eq_nil_of_le (by omega), List.append_nil]
  have hmem : (block_write bs hasFill zeroBuf b d offset size data async).2.mem
      b.buffer =
      List.replicate offset 0 ++ data ++ List.replicate (bs - (offset + size)) 0 := by
    simp only [block_write, if_true]
    rw [hcleared, htake]
    simp only [storeBytes, List.take_replicate, List.drop_replicate, hlen]
    have h1 : offset ⊓ bs = offset := by
      rw [inf_eq_min]
      exact Nat.min_eq_left (by omega)
    rw [h1]
  refine ⟨hmem, ?_, rfl, rfl⟩
  intro j hj
  rw [hmem]
  rcases hj with hj | hj
  · rw [List.getD_append _ _ _ _
      (by simp only [List.length_append, List.length_replicate]; omega)]
    rw [List.getD_append _ _ _ _
      (by simp only [List.length_replicate]; omega)]
    exact replicate_getD 0 1 offset j hj
  · rw [List.getD_append_right _ _ _ _
      (by simp only [List.length_append, List.length_replicate, hlen]; omega)]
    exact replicate_getD 0 1 (bs - (offset + size)) _
      (by simp only [List.length_append, List.length_replicate, hlen]; omega)

/-- C4 witness: block size 4, dirty block over buffer 1 holding
`[7, 8, 9, 10]`: a synchronous 2-byte write of `[5, 6]` at offset 1
leaves the buffer `[0, 5, 6, 0]` — zeros outside the written range,
checked at indices 0 and 3 — and an asynchronous write likewise comes
back non-dirty with event 0 recorded as the last write. -/
theorem block_write_dirty_clears_witness :
    (block_write 4 true 0 (block_mk 1) sampleDevice 1 2 [5, 6] false).2.mem 1 =
      List.replicate 1 0 ++ [5, 6] ++ List.replicate (4 - (1 + 2)) 0
    ∧ ((block_write 4 true 0 (block_mk 1) sampleDevice 1 2 [5, 6] false).2.mem 1).getD 0 1 = 0
    ∧ ((block_write 4 true 0 (block_mk 1) sampleDevice 1 2 [5, 6] false).2.mem 1).getD 3 1 = 0
    ∧ (block_write 4 true 0 (block_mk 1) sampleDevice 1 2 [5, 6] true).1.dirty = false
    ∧ (block_write 4 true 0 (block_mk 1) sampleDevice 1 2 [5, 6] true).1.last_write =
        some sampleDevice.nextEvent :=
  ⟨(block_write_dirty_clears 4 true 0 (block_mk 1) sampleDevice 1 2 [5, 6] false
      rfl (by decide) rfl (by decide) rfl (fun h => Bool.noConfusion h)).1,
   (block_write_dirty_clears 4 true 0 (block_mk 1) sampleDevice 1 2 [5, 6] false
      rfl (by decide) rfl (by decide) rfl (fun h => Bool.noConfusion h)).2.1
      0 (Or.inl (by decide)),
   (block_write_dirty_clears 4 true 0 (block_mk 1) sampleDevice 1 2 [5, 6] false
      rfl (by decide) rfl (by decide) rfl (fun h => Bool.noConfusion h)).2.1
      3 (Or.inr (by decide)),
   (block_write_dirty_clears 4 true 0 (block_mk 1) sampleDevice 1 2 [5, 6] true
      rfl (by decide) rfl (by decide) rfl (fun h => Bool.noConfusion h)).2.2.1,
   (block_write_dirty_clears 4 true 0 (block_mk 1) sampleDevice 1 2 [5, 6] true
      rfl (by decide) rfl (by decide) rfl (fun h => Bool.noConfusion h)).2.2.2⟩

end Vramfs
